import Mathlib

set_option maxRecDepth 8000

/-!
Verification of the Trivium stream-cipher implementation in the repository
PablodlFR/trivium-cipher-tfg (files cl_trivium.py and
grover_trivium_attack.py).

A cipher state is a Python list of 0/1 values, modelled as a List Bool.
Python indexing, which can raise IndexError, is modelled by Option-valued
access with l[i]?; Python slices state[a:b] become List.drop / List.take;
Python in-place element assignment becomes List.set.
-/

namespace ClTrivium

/-- Python state[i] read with out-of-range default false; used by the total
companions of the Option-valued functions, which agree with them on states
of length 288. -/
def bitD (state : List Bool) (i : Nat) : Bool := state.getD i false

/-- One warm-up clock of the Trivium state: the body of the initialisation
loop of key_iv_setup (cl_trivium.py lines 38-43).  The taps t1, t2, t3 are
read from the pre-update state and the new state is the Python expression
[t3] + state[:92] + [t1] + state[93:176] + [t2] + state[177:287]. -/
def warm_clock (state : List Bool) : Option (List Bool) :=
  match state[65]?, state[90]?, state[91]?, state[92]?, state[170]?,
    state[161]?, state[174]?, state[175]?, state[176]?, state[263]?,
    state[242]?, state[285]?, state[286]?, state[287]?, state[68]? with
  | some s65, some s90, some s91, some s92, some s170,
    some s161, some s174, some s175, some s176, some s263,
    some s242, some s285, some s286, some s287, some s68 =>
    let t1 := Bool.xor (Bool.xor (Bool.xor s65 (s90 && s91)) s92) s170
    let t2 := Bool.xor (Bool.xor (Bool.xor s161 (s174 && s175)) s176) s263
    let t3 := Bool.xor (Bool.xor (Bool.xor s242 (s285 && s286)) s287) s68
    some (t3 :: (state.take 92 ++
      t1 :: ((state.drop 93).take 83 ++
        t2 :: (state.drop 177).take 110)))
  | _, _, _, _, _, _, _, _, _, _, _, _, _, _, _ => none

/-- Tap t1 of the warm-up clock (cl_trivium.py line 39), total form. -/
def warm_t1 (s : List Bool) : Bool :=
  Bool.xor (Bool.xor (Bool.xor (bitD s 65) (bitD s 90 && bitD s 91)) (bitD s 92)) (bitD s 170)

/-- Tap t2 of the warm-up clock (cl_trivium.py line 40), total form. -/
def warm_t2 (s : List Bool) : Bool :=
  Bool.xor (Bool.xor (Bool.xor (bitD s 161) (bitD s 174 && bitD s 175)) (bitD s 176)) (bitD s 263)

/-- Tap t3 of the warm-up clock (cl_trivium.py line 41), total form. -/
def warm_t3 (s : List Bool) : Bool :=
  Bool.xor (Bool.xor (Bool.xor (bitD s 242) (bitD s 285 && bitD s 286)) (bitD s 287)) (bitD s 68)

/-- Total companion of warm_clock; agrees with it on length-288 states. -/
def warm_clockD (s : List Bool) : List Bool :=
  warm_t3 s :: (s.take 92 ++
    warm_t1 s :: ((s.drop 93).take 83 ++
      warm_t2 s :: (s.drop 177).take 110))

/-- One keystream clock (cl_trivium.py lines 60-71): emits the output bit z
and performs the same rotation as the warm-up clock, with the taps computed
in the refined two-stage order of key_stream_generation. -/
def ks_clock (state : List Bool) : Option (Bool × List Bool) :=
  match state[65]?, state[92]?, state[161]?, state[176]?,
    state[242]?, state[287]? with
  | some s65, some s92, some s161, some s176, some s242, some s287 =>
    let t1 := Bool.xor s65 s92
    let t2 := Bool.xor s161 s176
    let t3 := Bool.xor s242 s287
    let z := Bool.xor (Bool.xor t1 t2) t3
    match state[90]?, state[91]?, state[170]?, state[174]?, state[175]?,
      state[263]?, state[285]?, state[286]?, state[68]? with
    | some s90, some s91, some s170, some s174, some s175,
      some s263, some s285, some s286, some s68 =>
      let t1 := Bool.xor (Bool.xor t1 (s90 && s91)) s170
      let t2 := Bool.xor (Bool.xor t2 (s174 && s175)) s263
      let t3 := Bool.xor (Bool.xor t3 (s285 && s286)) s68
      some (z, t3 :: (state.take 92 ++
        t1 :: ((state.drop 93).take 83 ++
          t2 :: (state.drop 177).take 110)))
    | _, _, _, _, _, _, _, _, _ => none
  | _, _, _, _, _, _ => none

/-- Output bit of one keystream clock (cl_trivium.py lines 60-64). -/
def ks_z (s : List Bool) : Bool :=
  Bool.xor (Bool.xor (Bool.xor (bitD s 65) (bitD s 92))
    (Bool.xor (bitD s 161) (bitD s 176))) (Bool.xor (bitD s 242) (bitD s 287))

/-- Refined tap t1 of the keystream clock (cl_trivium.py lines 60, 67). -/
def ks_t1 (s : List Bool) : Bool :=
  Bool.xor (Bool.xor (Bool.xor (bitD s 65) (bitD s 92)) (bitD s 90 && bitD s 91)) (bitD s 170)

/-- Refined tap t2 of the keystream clock (cl_trivium.py lines 61, 68). -/
def ks_t2 (s : List Bool) : Bool :=
  Bool.xor (Bool.xor (Bool.xor (bitD s 161) (bitD s 176)) (bitD s 174 && bitD s 175)) (bitD s 263)

/-- Refined tap t3 of the keystream clock (cl_trivium.py lines 62, 69). -/
def ks_t3 (s : List Bool) : Bool :=
  Bool.xor (Bool.xor (Bool.xor (bitD s 242) (bitD s 287)) (bitD s 285 && bitD s 286)) (bitD s 68)

/-- Total companion of the state part of ks_clock. -/
def ks_clockD (s : List Bool) : List Bool :=
  ks_t3 s :: (s.take 92 ++
    ks_t1 s :: ((s.drop 93).take 83 ++
      ks_t2 s :: (s.drop 177).take 110))

/-- Python loop for i in range(count): state[off + i] = src[i], starting at
loop index i (cl_trivium.py lines 29-33). -/
def load_bits (src : List Bool) (off : Nat) : Nat → Nat → List Bool → Option (List Bool)
  | _, 0, state => some state
  | i, k + 1, state => do
    let b ← src[i]?
    load_bits src off (i + 1) k (state.set (off + i) b)

/-- Python warm-up loop for i in range(n) applying one warm-up clock per
iteration (cl_trivium.py lines 38-43). -/
def warm_loop : Nat → List Bool → Option (List Bool)
  | 0, state => some state
  | k + 1, state => do
    let s ← warm_clock state
    warm_loop k s

/-- State of key_iv_setup just before the warm-up loop (cl_trivium.py lines
27-36): zeroed 288-entry list, key bits at 0..79, IV bits at 93..172, and
positions 285, 286, 287 forced to 1. -/
def pre_warm (key iv : List Bool) : Option (List Bool) := do
  let state := List.replicate 288 false
  let state ← load_bits key 0 0 80 state
  let state ← load_bits iv 93 0 80 state
  pure (((state.set 285 true).set 286 true).set 287 true)

/-- key_iv_setup of cl_trivium.py (lines 16-45): load key and IV, force the
last three bits of register C, then run 4 * 288 warm-up clocks. -/
def key_iv_setup (key iv : List Bool) : Option (List Bool) := do
  let state ← pre_warm key iv
  warm_loop (4 * 288) state

/-- Generation loop of key_stream_generation (cl_trivium.py lines 59-71):
k clocks remaining, i the next keystream position to fill. -/
def ks_loop : Nat → Nat → List Bool → List Bool → Option (List Bool)
  | 0, _, keystream, _ => some keystream
  | k + 1, i, keystream, state => do
    let zs ← ks_clock state
    ks_loop k (i + 1) (keystream.set i zs.1) zs.2

/-- key_stream_generation of cl_trivium.py (lines 47-73).  N is a Python
int; Python [0] * N is empty for N below zero and range(N) is then also
empty, which Int.toNat reproduces. -/
def key_stream_generation (state : List Bool) (N : Int) : Option (List Bool) :=
  ks_loop N.toNat 0 (List.replicate N.toNat false) state

/-- Instrumented companion of ks_loop that also carries the current cipher
state and the number of clocks performed so far. -/
def ks_loopE : Nat → Nat → List Bool → List Bool → Nat → Option (List Bool × List Bool × Nat)
  | 0, _, keystream, state, c => some (keystream, state, c)
  | k + 1, i, keystream, state, c => do
    let zs ← ks_clock state
    ks_loopE k (i + 1) (keystream.set i zs.1) zs.2 (c + 1)

/-- Instrumented companion of key_stream_generation exposing the discarded
final state and the clock count. -/
def key_stream_generationE (state : List Bool) (N : Int) :
    Option (List Bool × List Bool × Nat) :=
  ks_loopE N.toNat 0 (List.replicate N.toNat false) state 0

/-- Pure bit stream: n output bits from a state, one keystream clock each. -/
def ks_streamD : Nat → List Bool → List Bool
  | 0, _ => []
  | n + 1, s => ks_z s :: ks_streamD n (ks_clockD s)

/-- Heap model of key_stream_generation: the heap is the collection of
Python list objects alive, the cipher state is an address into it.  Each
iteration dereferences the current address, builds a fresh list, allocates
it at the end of the heap and rebinds the local variable to the fresh
address, exactly as the Python assignment state = [t3] + ... does. -/
def ks_heap_loop : Nat → Nat → List Bool → List (List Bool) → Nat →
    Option (List (List Bool) × List Bool)
  | 0, _, keystream, heap, _ => some (heap, keystream)
  | k + 1, i, keystream, heap, addr => do
    let st ← heap[addr]?
    let zs ← ks_clock st
    ks_heap_loop k (i + 1) (keystream.set i zs.1) (heap ++ [zs.2]) heap.length

/-- key_stream_generation run against the heap model, the caller's state
list living at address addr. -/
def key_stream_generation_heap (heap : List (List Bool)) (addr : Nat)
    (N : Int) : Option (List (List Bool) × List Bool) :=
  ks_heap_loop N.toNat 0 (List.replicate N.toNat false) heap addr

example : warm_clockD (List.replicate 288 false) = List.replicate 288 false := by decide
example : warm_clock (List.replicate 288 false) = some (List.replicate 288 false) := by decide
example : key_stream_generation (List.replicate 288 false) (-3) = some [] := by decide
example : key_stream_generation ((List.replicate 288 false).set 65 true) 2 =
    some [true, false] := by decide

/-- An in-range Option read yields the default-valued read. -/
theorem bit_some (s : List Bool) (i : Nat) (h : i < s.length) :
    s[i]? = some (bitD s i) := by
  simp [bitD, List.getD_eq_getElem?_getD, List.getElem?_eq_getElem h]

/-- On a 288-bit state the warm-up clock never fails and agrees with its
total companion. -/
theorem warm_clock_eq (s : List Bool) (h : s.length = 288) :
    warm_clock s = some (warm_clockD s) := by
  simp only [warm_clock,
    bit_some s 65 (by omega), bit_some s 90 (by omega), bit_some s 91 (by omega),
    bit_some s 92 (by omega), bit_some s 170 (by omega), bit_some s 161 (by omega),
    bit_some s 174 (by omega), bit_some s 175 (by omega), bit_some s 176 (by omega),
    bit_some s 263 (by omega), bit_some s 242 (by omega), bit_some s 285 (by omega),
    bit_some s 286 (by omega), bit_some s 287 (by omega), bit_some s 68 (by omega)]
  rfl

/-- On a 288-bit state the keystream clock never fails, emits ks_z and moves
to the state given by its total companion. -/
theorem ks_clock_eq (s : List Bool) (h : s.length = 288) :
    ks_clock s = some (ks_z s, ks_clockD s) := by
  simp only [ks_clock,
    bit_some s 65 (by omega), bit_some s 92 (by omega), bit_some s 161 (by omega),
    bit_some s 176 (by omega), bit_some s 242 (by omega), bit_some s 287 (by omega),
    bit_some s 90 (by omega), bit_some s 91 (by omega), bit_some s 170 (by omega),
    bit_some s 174 (by omega), bit_some s 175 (by omega), bit_some s 263 (by omega),
    bit_some s 285 (by omega), bit_some s 286 (by omega), bit_some s 68 (by omega)]
  rfl

/-- Moving one xor operand across another in a left-associated chain. -/
theorem xor_swap_mid (a d g e : Bool) :
    Bool.xor (Bool.xor (Bool.xor a d) g) e =
      Bool.xor (Bool.xor (Bool.xor a g) d) e := by
  cases a <;> cases d <;> cases g <;> cases e <;> rfl

/-- The refined keystream tap t1 equals the warm-up tap t1. -/
theorem ks_t1_eq_warm (s : List Bool) : ks_t1 s = warm_t1 s := by
  simp only [ks_t1, warm_t1, xor_swap_mid]

/-- The refined keystream tap t2 equals the warm-up tap t2. -/
theorem ks_t2_eq_warm (s : List Bool) : ks_t2 s = warm_t2 s := by
  simp only [ks_t2, warm_t2, xor_swap_mid]

/-- The refined keystream tap t3 equals the warm-up tap t3. -/
theorem ks_t3_eq_warm (s : List Bool) : ks_t3 s = warm_t3 s := by
  simp only [ks_t3, warm_t3, xor_swap_mid]

/-- The keystream clock and the warm-up clock are the same state
transition. -/
theorem ks_clockD_eq_warm_clockD (s : List Bool) : ks_clockD s = warm_clockD s := by
  simp only [ks_clockD, warm_clockD, ks_t1_eq_warm, ks_t2_eq_warm, ks_t3_eq_warm]

/-- The warm-up clock preserves the state length 288. -/
theorem warm_clockD_length (s : List Bool) (h : s.length = 288) :
    (warm_clockD s).length = 288 := by
  simp [warm_clockD, h]

/-- Index-by-index description of the state written by one warm-up clock on
a 288-bit state. -/
theorem warm_clockD_getElem (s : List Bool) (h : s.length = 288) (i : Nat) :
    (warm_clockD s)[i]? =
      if i = 0 then some (warm_t3 s)
      else if i ≤ 92 then s[i - 1]?
      else if i = 93 then some (warm_t1 s)
      else if i ≤ 176 then s[i - 1]?
      else if i = 177 then some (warm_t2 s)
      else if i ≤ 287 then s[i - 1]?
      else none := by
  have hTake : (s.take 92).length = 92 := by simp [h]
  have hL2 : ((s.drop 93).take 83).length = 83 := by simp [h]
  have hL3 : ((s.drop 177).take 110).length = 110 := by simp [h]
  rcases Nat.eq_zero_or_pos i with rfl | hi
  · simp [warm_clockD]
  obtain ⟨j, rfl⟩ : ∃ j, i = j + 1 := ⟨i - 1, by omega⟩
  simp only [warm_clockD, List.getElem?_cons_succ]
  rw [if_neg (by omega)]
  by_cases hj1 : j < 92
  · rw [List.getElem?_append_left (by omega), List.getElem?_take_of_lt hj1,
      if_pos (by omega), Nat.add_sub_cancel]
  rw [List.getElem?_append_right (by omega), hTake]
  by_cases hj2 : j = 92
  · subst hj2
    rw [if_neg (by omega), if_pos (by omega)]
    simp
  obtain ⟨m, hm⟩ : ∃ m, j - 92 = m + 1 := ⟨j - 93, by omega⟩
  rw [hm, List.getElem?_cons_succ]
  rw [if_neg (by omega), if_neg (by omega)]
  by_cases hj3 : m < 83
  · rw [List.getElem?_append_left (by omega), List.getElem?_take_of_lt hj3,
      List.getElem?_drop, if_pos (by omega)]
    congr 1
    omega
  rw [List.getElem?_append_right (by omega), hL2]
  by_cases hj4 : m = 83
  · subst hj4
    rw [if_neg (by omega), if_pos (by omega)]
    simp
  obtain ⟨p, hp⟩ : ∃ p, m - 83 = p + 1 := ⟨m - 84, by omega⟩
  rw [hp, List.getElem?_cons_succ]
  rw [if_neg (by omega), if_neg (by omega)]
  by_cases hj5 : p < 110
  · rw [List.getElem?_take_of_lt hj5, List.getElem?_drop, if_pos (by omega)]
    congr 1
    omega
  rw [if_neg (by omega)]
  apply List.getElem?_eq_none
  omega

/-- Regrouping a six-term xor from the pairwise grouping of the code to the
left-associated chain of the specification. -/
theorem xor_regroup (a b c d e f : Bool) :
    Bool.xor (Bool.xor (Bool.xor a b) (Bool.xor c d)) (Bool.xor e f) =
      Bool.xor (Bool.xor (Bool.xor (Bool.xor (Bool.xor a b) c) d) e) f := by
  cases a <;> cases b <;> cases c <;> cases d <;> cases e <;> cases f <;> rfl

/-- C1: one warm-up clock of a 288-bit state computes t1, t2, t3 from the
pre-update state by the fixed tap formulas and produces the 288-bit state
t3, old 0..91, t1, old 93..175, t2, old 177..286. -/
theorem warm_clock_c1 (s : List Bool) (h : s.length = 288) :
    ∃ s2, warm_clock s = some s2 ∧ s2.length = 288 ∧
      s2[0]? = some (Bool.xor (Bool.xor (Bool.xor (bitD s 242)
        (bitD s 285 && bitD s 286)) (bitD s 287)) (bitD s 68)) ∧
      s2[93]? = some (Bool.xor (Bool.xor (Bool.xor (bitD s 65)
        (bitD s 90 && bitD s 91)) (bitD s 92)) (bitD s 170)) ∧
      s2[177]? = some (Bool.xor (Bool.xor (Bool.xor (bitD s 161)
        (bitD s 174 && bitD s 175)) (bitD s 176)) (bitD s 263)) ∧
      (∀ i : Nat, 1 ≤ i → i ≤ 92 → s2[i]? = s[i - 1]?) ∧
      (∀ i : Nat, 94 ≤ i → i ≤ 176 → s2[i]? = s[i - 1]?) ∧
      (∀ i : Nat, 178 ≤ i → i ≤ 287 → s2[i]? = s[i - 1]?) := by
  refine ⟨warm_clockD s, warm_clock_eq s h, warm_clockD_length s h, ?_, ?_, ?_, ?_, ?_, ?_⟩
  · rw [warm_clockD_getElem s h 0, if_pos rfl]
    rfl
  · rw [warm_clockD_getElem s h 93, if_neg (by omega), if_neg (by omega), if_pos rfl]
    rfl
  · rw [warm_clockD_getElem s h 177, if_neg (by omega), if_neg (by omega),
      if_neg (by omega), if_neg (by omega), if_pos rfl]
    rfl
  · intro i h1 h2
    rw [warm_clockD_getElem s h i, if_neg (by omega), if_pos (by omega)]
  · intro i h1 h2
    rw [warm_clockD_getElem s h i, if_neg (by omega), if_neg (by omega),
      if_neg (by omega), if_pos (by omega)]
  · intro i h1 h2
    rw [warm_clockD_getElem s h i, if_neg (by omega), if_neg (by omega),
      if_neg (by omega), if_neg (by omega), if_neg (by omega), if_pos (by omega)]

/-- Witness for warm_clock_c1 at the all-zero 288-bit state. -/
theorem warm_clock_c1_witness :
    (List.replicate 288 false).length = 288 ∧
      ∃ s2, warm_clock (List.replicate 288 false) = some s2 ∧ s2.length = 288 ∧
        s2[0]? = some (Bool.xor (Bool.xor (Bool.xor (bitD (List.replicate 288 false) 242)
          (bitD (List.replicate 288 false) 285 && bitD (List.replicate 288 false) 286))
          (bitD (List.replicate 288 false) 287)) (bitD (List.replicate 288 false) 68)) ∧
        s2[93]? = some (Bool.xor (Bool.xor (Bool.xor (bitD (List.replicate 288 false) 65)
          (bitD (List.replicate 288 false) 90 && bitD (List.replicate 288 false) 91))
          (bitD (List.replicate 288 false) 92)) (bitD (List.replicate 288 false) 170)) ∧
        s2[177]? = some (Bool.xor (Bool.xor (Bool.xor (bitD (List.replicate 288 false) 161)
          (bitD (List.replicate 288 false) 174 && bitD (List.replicate 288 false) 175))
          (bitD (List.replicate 288 false) 176)) (bitD (List.replicate 288 false) 263)) ∧
        (∀ i : Nat, 1 ≤ i → i ≤ 92 → s2[i]? = (List.replicate 288 false)[i - 1]?) ∧
        (∀ i : Nat, 94 ≤ i → i ≤ 176 → s2[i]? = (List.replicate 288 false)[i - 1]?) ∧
        (∀ i : Nat, 178 ≤ i → i ≤ 287 → s2[i]? = (List.replicate 288 false)[i - 1]?) :=
  ⟨by simp, warm_clock_c1 (List.replicate 288 false) (by simp)⟩

/-- C2: one keystream clock of a 288-bit state emits the xor of the six
output taps of the pre-update state and performs exactly the warm-up state
transition: the refined taps equal the warm-up taps. -/
theorem ks_clock_c2 (s : List Bool) (h : s.length = 288) :
    ∃ z s2, ks_clock s = some (z, s2) ∧
      z = Bool.xor (Bool.xor (Bool.xor (Bool.xor (Bool.xor (bitD s 65) (bitD s 92))
        (bitD s 161)) (bitD s 176)) (bitD s 242)) (bitD s 287) ∧
      ks_t1 s = warm_t1 s ∧ ks_t2 s = warm_t2 s ∧ ks_t3 s = warm_t3 s ∧
      warm_clock s = some s2 ∧ ks_clockD s = warm_clockD s := by
  refine ⟨ks_z s, ks_clockD s, ks_clock_eq s h, ?_, ks_t1_eq_warm s,
    ks_t2_eq_warm s, ks_t3_eq_warm s, ?_, ks_clockD_eq_warm_clockD s⟩
  · rw [ks_z, xor_regroup]
  · rw [warm_clock_eq s h, ks_clockD_eq_warm_clockD s]

/-- Witness for ks_clock_c2 at the all-zero 288-bit state. -/
theorem ks_clock_c2_witness :
    (List.replicate 288 false).length = 288 ∧
      ∃ z s2, ks_clock (List.replicate 288 false) = some (z, s2) ∧
        z = Bool.xor (Bool.xor (Bool.xor (Bool.xor (Bool.xor
          (bitD (List.replicate 288 false) 65) (bitD (List.replicate 288 false) 92))
          (bitD (List.replicate 288 false) 161)) (bitD (List.replicate 288 false) 176))
          (bitD (List.replicate 288 false) 242)) (bitD (List.replicate 288 false) 287) ∧
        ks_t1 (List.replicate 288 false) = warm_t1 (List.replicate 288 false) ∧
        ks_t2 (List.replicate 288 false) = warm_t2 (List.replicate 288 false) ∧
        ks_t3 (List.replicate 288 false) = warm_t3 (List.replicate 288 false) ∧
        warm_clock (List.replicate 288 false) = some s2 ∧
        ks_clockD (List.replicate 288 false) = warm_clockD (List.replicate 288 false) :=
  ⟨by simp, ks_clock_c2 (List.replicate 288 false) (by simp)⟩

/-- The warm-up loop on a 288-bit state never fails and iterates the total
warm-up clock. -/
theorem warm_loop_eq (n : Nat) :
    ∀ s : List Bool, s.length = 288 → warm_loop n s = some (warm_clockD^[n] s) := by
  induction n with
  | zero => intro s _; rfl
  | succ k ih =>
    intro s h
    show warm_clock s >>= warm_loop k = _
    rw [warm_clock_eq s h]
    show warm_loop k (warm_clockD s) = _
    rw [ih (warm_clockD s) (warm_clockD_length s h), Function.iterate_succ_apply]

/-- Iterating the warm-up clock preserves the state length 288. -/
theorem warm_iterate_length (n : Nat) :
    ∀ s : List Bool, s.length = 288 → (warm_clockD^[n] s).length = 288 := by
  induction n with
  | zero => intro s h; simpa using h
  | succ k ih =>
    intro s h
    rw [Function.iterate_succ_apply]
    exact ih _ (warm_clockD_length s h)

/-- Only the all-zero 288-bit state clocks to the all-zero state: the
all-false output pins down every pre-clock bit. -/
theorem warm_clockD_zero_pre (s : List Bool) (h : s.length = 288)
    (hz : warm_clockD s = List.replicate 288 false) :
    s = List.replicate 288 false := by
  have hmid : ∀ j : Nat, j < 288 → j ≠ 92 → j ≠ 176 → j ≠ 287 → s[j]? = some false := by
    intro j hj h1 h2 h3
    have hc := warm_clockD_getElem s h (j + 1)
    rw [hz] at hc
    rcases Nat.lt_or_ge j 92 with hA | hA
    · rw [if_neg (by omega), if_pos (by omega), Nat.add_sub_cancel,
        List.getElem?_replicate_of_lt (by omega)] at hc
      exact hc.symm
    rcases Nat.lt_or_ge j 176 with hB | hB
    · rw [if_neg (by omega), if_neg (by omega), if_neg (by omega), if_pos (by omega),
        Nat.add_sub_cancel, List.getElem?_replicate_of_lt (by omega)] at hc
      exact hc.symm
    rw [if_neg (by omega), if_neg (by omega), if_neg (by omega), if_neg (by omega),
      if_neg (by omega), if_pos (by omega), Nat.add_sub_cancel,
      List.getElem?_replicate_of_lt (by omega)] at hc
    exact hc.symm
  have hbit : ∀ j : Nat, j < 288 → j ≠ 92 → j ≠ 176 → j ≠ 287 → bitD s j = false := by
    intro j hj h1 h2 h3
    have := hmid j hj h1 h2 h3
    simp [bitD, List.getD_eq_getElem?_getD, this]
  have ht1 : warm_t1 s = false := by
    have hc := warm_clockD_getElem s h 93
    rw [hz, if_neg (by omega), if_neg (by omega), if_pos rfl,
      List.getElem?_replicate_of_lt (by omega)] at hc
    exact (Option.some_inj.mp hc).symm
  have ht2 : warm_t2 s = false := by
    have hc := warm_clockD_getElem s h 177
    rw [hz, if_neg (by omega), if_neg (by omega), if_neg (by omega), if_neg (by omega),
      if_pos rfl, List.getElem?_replicate_of_lt (by omega)] at hc
    exact (Option.some_inj.mp hc).symm
  have ht3 : warm_t3 s = false := by
    have hc := warm_clockD_getElem s h 0
    rw [hz, if_pos rfl, List.getElem?_replicate_of_lt (by omega)] at hc
    exact (Option.some_inj.mp hc).symm
  have h92 : bitD s 92 = false := by
    rw [warm_t1, hbit 65 (by omega) (by omega) (by omega) (by omega),
      hbit 90 (by omega) (by omega) (by omega) (by omega),
      hbit 91 (by omega) (by omega) (by omega) (by omega),
      hbit 170 (by omega) (by omega) (by omega) (by omega)] at ht1
    simpa using ht1
  have h176 : bitD s 176 = false := by
    rw [warm_t2, hbit 161 (by omega) (by omega) (by omega) (by omega),
      hbit 174 (by omega) (by omega) (by omega) (by omega),
      hbit 175 (by omega) (by omega) (by omega) (by omega),
      hbit 263 (by omega) (by omega) (by omega) (by omega)] at ht2
    simpa using ht2
  have h287 : bitD s 287 = false := by
    rw [warm_t3, hbit 242 (by omega) (by omega) (by omega) (by omega),
      hbit 285 (by omega) (by omega) (by omega) (by omega),
      hbit 286 (by omega) (by omega) (by omega) (by omega),
      hbit 68 (by omega) (by omega) (by omega) (by omega)] at ht3
    simpa using ht3
  apply List.ext_getElem?
  intro n
  rcases Nat.lt_or_ge n 288 with hn | hn
  · rw [List.getElem?_replicate_of_lt hn]
    by_cases h1 : n = 92
    · rw [h1, bit_some s 92 (by omega), h92]
    by_cases h2 : n = 176
    · rw [h2, bit_some s 176 (by omega), h176]
    by_cases h3 : n = 287
    · rw [h3, bit_some s 287 (by omega), h287]
    exact hmid n hn h1 h2 h3
  · rw [List.getElem?_eq_none (by omega), List.getElem?_eq_none (by simp; omega)]

/-- Iterating the warm-up clock from a nonzero 288-bit state never reaches
the all-zero state. -/
theorem warm_iterate_ne_zero (n : Nat) :
    ∀ s : List Bool, s.length = 288 → s ≠ List.replicate 288 false →
      warm_clockD^[n] s ≠ List.replicate 288 false := by
  induction n with
  | zero => intro s _ hs; simpa using hs
  | succ k ih =>
    intro s h hs
    rw [Function.iterate_succ_apply]
    refine ih _ (warm_clockD_length s h) ?_
    intro hzero
    exact hs (warm_clockD_zero_pre s h hzero)

/-- A bit-loading loop that still has an out-of-range source index ahead of
it fails (Python IndexError). -/
theorem load_bits_none (src : List Bool) (off : Nat) :
    ∀ k i state, 0 < k → src.length < i + k →
      load_bits src off i k state = none := by
  intro k
  induction k with
  | zero => intro i state h0 _; exact absurd h0 (by omega)
  | succ k ih =>
    intro i state _ h1
    simp only [load_bits]
    by_cases hi : i < src.length
    · rw [bit_some src i hi]
      show load_bits src off (i + 1) k _ = none
      exact ih (i + 1) _ (by omega) (by omega)
    · rw [List.getElem?_eq_none (by omega)]
      rfl

/-- Successful run of the bit-loading loop: it copies source bits i..i+k-1
to offsets off+i..off+i+k-1 and leaves every other position alone. -/
theorem load_bits_spec (src : List Bool) (off : Nat) :
    ∀ k i state, i + k ≤ src.length → off + i + k ≤ state.length →
      ∃ st2, load_bits src off i k state = some st2 ∧ st2.length = state.length ∧
        ∀ j : Nat, st2[j]? =
          if off + i ≤ j ∧ j < off + i + k then src[j - off]? else state[j]? := by
  intro k
  induction k with
  | zero =>
    intro i state _ _
    exact ⟨state, rfl, rfl, fun j => by rw [if_neg (by omega)]⟩
  | succ k ih =>
    intro i state h1 h2
    obtain ⟨st2, heq, hlen, hchar⟩ :=
      ih (i + 1) (state.set (off + i) (bitD src i)) (by omega) (by simp; omega)
    refine ⟨st2, ?_, by rw [hlen]; simp, ?_⟩
    · simp only [load_bits]
      rw [bit_some src i (by omega)]
      exact heq
    · intro j
      rw [hchar j]
      by_cases hj : off + (i + 1) ≤ j ∧ j < off + (i + 1) + k
      · rw [if_pos hj, if_pos (by omega)]
      · rw [if_neg hj]
        by_cases hje : j = off + i
        · subst hje
          rw [List.getElem?_set_self (by omega), if_pos (by omega),
            show off + i - off = i by omega, bit_some src i (by omega)]
        · rw [List.getElem?_set_ne (by omega), if_neg (by omega)]

/-- The state assembled by key_iv_setup before its warm-up loop, for key and
IV long enough: key bits at 0..79, IV bits at 93..172, ones at 285..287,
zero everywhere else. -/
theorem pre_warm_spec (key iv : List Bool) (hk : 80 ≤ key.length)
    (hiv : 80 ≤ iv.length) :
    ∃ p, pre_warm key iv = some p ∧ p.length = 288 ∧
      ∀ j : Nat, p[j]? =
        if j < 80 then key[j]?
        else if 93 ≤ j ∧ j < 173 then iv[j - 93]?
        else if 285 ≤ j ∧ j < 288 then some true
        else if j < 288 then some false
        else none := by
  obtain ⟨s1, he1, hl1, hc1⟩ :=
    load_bits_spec key 0 80 0 (List.replicate 288 false) (by omega) (by simp)
  obtain ⟨s2, he2, hl2, hc2⟩ :=
    load_bits_spec iv 93 80 0 s1 (by omega) (by rw [hl1]; simp)
  have hl2' : s2.length = 288 := by rw [hl2, hl1]; simp
  refine ⟨((s2.set 285 true).set 286 true).set 287 true, ?_, by simp [hl2'], ?_⟩
  · show (load_bits key 0 0 80 (List.replicate 288 false)) >>= _ = _
    rw [he1]
    show (load_bits iv 93 0 80 s1) >>= _ = _
    rw [he2]
    rfl
  · intro j
    by_cases h287 : j = 287
    · subst h287
      rw [List.getElem?_set_self (by simp [hl2']), if_neg (by omega),
        if_neg (by omega), if_pos (by omega)]
    rw [List.getElem?_set_ne (by omega)]
    by_cases h286 : j = 286
    · subst h286
      rw [List.getElem?_set_self (by simp [hl2']), if_neg (by omega),
        if_neg (by omega), if_pos (by omega)]
    rw [List.getElem?_set_ne (by omega)]
    by_cases h285 : j = 285
    · subst h285
      rw [List.getElem?_set_self (by omega), if_neg (by omega),
        if_neg (by omega), if_pos (by omega)]
    rw [List.getElem?_set_ne (by omega), hc2 j]
    by_cases hIv : 93 + 0 ≤ j ∧ j < 93 + 0 + 80
    · rw [if_pos hIv, if_neg (by omega), if_pos (by omega)]
    rw [if_neg hIv, hc1 j]
    by_cases hKey : 0 + 0 ≤ j ∧ j < 0 + 0 + 80
    · rw [if_pos hKey, if_pos (by omega)]
      simp
    rw [if_neg hKey]
    by_cases hj : j < 288
    · rw [List.getElem?_replicate_of_lt hj, if_neg (by omega), if_neg (by omega),
        if_neg (by omega), if_pos hj]
    · rw [List.getElem?_eq_none (by simp; omega), if_neg (by omega),
        if_neg (by omega), if_neg (by omega), if_neg (by omega)]

/-- key_iv_setup, unfolded through its warm-up loop, for key and IV long
enough: the pre-warm-up state is clocked 4 * 288 times. -/
theorem key_iv_setup_eq (key iv : List Bool) (p : List Bool)
    (hp : pre_warm key iv = some p) (hl : p.length = 288) :
    key_iv_setup key iv = some (warm_clockD^[4 * 288] p) := by
  rw [key_iv_setup, hp, Option.bind_eq_bind', Option.some_bind]
  exact warm_loop_eq (4 * 288) p hl

/-- The pre-warm-up state of the all-zero key and IV is not the all-zero
state: position 285 holds a one. -/
theorem pre_warm_zero_ne (p : List Bool)
    (hc : ∀ j : Nat, p[j]? =
      if j < 80 then (List.replicate 80 false : List Bool)[j]?
      else if 93 ≤ j ∧ j < 173 then (List.replicate 80 false : List Bool)[j - 93]?
      else if 285 ≤ j ∧ j < 288 then some true
      else if j < 288 then some false
      else none) :
    p ≠ List.replicate 288 false := by
  intro heq
  have h285 := hc 285
  rw [heq, if_neg (by omega), if_neg (by omega), if_pos (by omega),
    List.getElem?_replicate_of_lt (by omega)] at h285
  exact Bool.false_ne_true (Option.some_inj.mp h285)

/-- C3: key_iv_setup builds the 288-bit state with the key at 0..79, the IV
at 93..172, ones at 285..287 and zeros elsewhere, then performs exactly
1152 warm-up clocks; for the all-zero key and IV the pre-warm-up state has
ones at 285..287 and the post-setup state is not all-zero. -/
theorem key_iv_setup_c3 (key iv : List Bool) (hk : key.length = 80)
    (hiv : iv.length = 80) :
    ∃ p, pre_warm key iv = some p ∧ p.length = 288 ∧
      (∀ j : Nat, j < 80 → p[j]? = key[j]?) ∧
      (∀ j : Nat, 93 ≤ j → j < 173 → p[j]? = iv[j - 93]?) ∧
      (∀ j : Nat, 285 ≤ j → j < 288 → p[j]? = some true) ∧
      (∀ j : Nat, j < 288 → 80 ≤ j → (j < 93 ∨ 173 ≤ j) → j < 285 →
        p[j]? = some false) ∧
      key_iv_setup key iv = some (warm_clockD^[1152] p) ∧
      (∃ q, key_iv_setup (List.replicate 80 false) (List.replicate 80 false) = some q ∧
        q ≠ List.replicate 288 false) := by
  obtain ⟨p, hp, hl, hc⟩ := pre_warm_spec key iv (by omega) (by omega)
  refine ⟨p, hp, hl, ?_, ?_, ?_, ?_, ?_, ?_⟩
  · intro j hj
    rw [hc j, if_pos hj]
  · intro j h1 h2
    rw [hc j, if_neg (by omega), if_pos (by omega)]
  · intro j h1 h2
    rw [hc j, if_neg (by omega), if_neg (by omega), if_pos (by omega)]
  · intro j h1 h2 h3 h4
    rw [hc j, if_neg (by omega), if_neg (by omega), if_neg (by omega), if_pos h1]
  · rw [show (1152 : Nat) = 4 * 288 by norm_num]
    exact key_iv_setup_eq key iv p hp hl
  · obtain ⟨p0, hp0, hl0, hc0⟩ :=
      pre_warm_spec (List.replicate 80 false) (List.replicate 80 false)
        (by simp) (by simp)
    refine ⟨warm_clockD^[4 * 288] p0,
      key_iv_setup_eq (List.replicate 80 false) (List.replicate 80 false) p0 hp0 hl0,
      warm_iterate_ne_zero (4 * 288) p0 hl0 (pre_warm_zero_ne p0 hc0)⟩

/-- Witness for key_iv_setup_c3 at the all-zero 80-bit key and IV. -/
theorem key_iv_setup_c3_witness :
    (List.replicate 80 false : List Bool).length = 80 ∧
      ∃ p, pre_warm (List.replicate 80 false) (List.replicate 80 false) = some p ∧
        p.length = 288 ∧
        (∀ j : Nat, j < 80 → p[j]? = (List.replicate 80 false : List Bool)[j]?) ∧
        (∀ j : Nat, 93 ≤ j → j < 173 →
          p[j]? = (List.replicate 80 false : List Bool)[j - 93]?) ∧
        (∀ j : Nat, 285 ≤ j → j < 288 → p[j]? = some true) ∧
        (∀ j : Nat, j < 288 → 80 ≤ j → (j < 93 ∨ 173 ≤ j) → j < 285 →
          p[j]? = some false) ∧
        key_iv_setup (List.replicate 80 false) (List.replicate 80 false) =
          some (warm_clockD^[1152] p) ∧
        (∃ q, key_iv_setup (List.replicate 80 false) (List.replicate 80 false) = some q ∧
          q ≠ List.replicate 288 false) :=
  ⟨by simp,
    key_iv_setup_c3 (List.replicate 80 false) (List.replicate 80 false)
      (by simp) (by simp)⟩

/-- The keystream clock preserves the state length 288. -/
theorem ks_clockD_length (s : List Bool) (h : s.length = 288) :
    (ks_clockD s).length = 288 := by
  rw [ks_clockD_eq_warm_clockD]
  exact warm_clockD_length s h

/-- The pure keystream has one bit per clock. -/
theorem ks_streamD_length (n : Nat) : ∀ s : List Bool, (ks_streamD n s).length = n := by
  induction n with
  | zero => intro s; rfl
  | succ k ih => intro s; simp [ks_streamD, ih]

/-- Writing position i of a list and keeping the first i + 1 entries
appends the written bit to the first i entries. -/
theorem take_set_succ (l : List Bool) (i : Nat) (z : Bool) (h : i < l.length) :
    (l.set i z).take (i + 1) = l.take i ++ [z] := by
  rw [List.set_eq_take_append_cons_drop, if_pos h,
    show i + 1 = (l.take i).length + 1 by simp [List.length_take]; omega,
    List.take_append]
  simp

/-- The generation loop fills the keystream buffer with the pure bit
stream, one bit per clock, in generation order. -/
theorem ks_loop_eq : ∀ k i ks s, s.length = 288 → ks.length = i + k →
    ks_loop k i ks s = some (ks.take i ++ ks_streamD k s) := by
  intro k
  induction k with
  | zero =>
    intro i ks s _ hlen
    simp only [ks_loop, ks_streamD]
    rw [List.take_of_length_le (by omega), List.append_nil]
  | succ k ih =>
    intro i ks s h hlen
    simp only [ks_loop]
    rw [ks_clock_eq s h, Option.bind_eq_bind', Option.some_bind]
    show ks_loop k (i + 1) (ks.set i (ks_z s)) (ks_clockD s) = _
    rw [ih (i + 1) (ks.set i (ks_z s)) (ks_clockD s) (ks_clockD_length s h)
        (by simp; omega),
      take_set_succ ks i (ks_z s) (by omega), List.append_assoc]
    rfl

/-- key_stream_generation on a 288-bit state never fails and returns the
pure bit stream of the first N.toNat clocks. -/
theorem key_stream_generation_eq (s : List Bool) (h : s.length = 288) (N : Int) :
    key_stream_generation s N = some (ks_streamD N.toNat s) := by
  rw [key_stream_generation,
    ks_loop_eq N.toNat 0 (List.replicate N.toNat false) s h (by simp)]
  rfl

/-- The instrumented generation loop: same keystream, final state the
k-fold clocked state, clock count increased by k. -/
theorem ks_loopE_eq : ∀ k i ks s c, s.length = 288 → ks.length = i + k →
    ks_loopE k i ks s c =
      some (ks.take i ++ ks_streamD k s, ks_clockD^[k] s, c + k) := by
  intro k
  induction k with
  | zero =>
    intro i ks s c _ hlen
    simp only [ks_loopE, ks_streamD]
    rw [List.take_of_length_le (by omega), List.append_nil]
    rfl
  | succ k ih =>
    intro i ks s c h hlen
    simp only [ks_loopE]
    rw [ks_clock_eq s h, Option.bind_eq_bind', Option.some_bind]
    show ks_loopE k (i + 1) (ks.set i (ks_z s)) (ks_clockD s) (c + 1) = _
    rw [ih (i + 1) (ks.set i (ks_z s)) (ks_clockD s) (c + 1) (ks_clockD_length s h)
        (by simp; omega),
      take_set_succ ks i (ks_z s) (by omega), List.append_assoc,
      Function.iterate_succ_apply, show c + 1 + k = c + (k + 1) by omega]
    rfl

/-- Instrumented key_stream_generation on a 288-bit state. -/
theorem key_stream_generationE_eq (s : List Bool) (h : s.length = 288) (N : Int) :
    key_stream_generationE s N =
      some (ks_streamD N.toNat s, ks_clockD^[N.toNat] s, N.toNat) := by
  rw [key_stream_generationE,
    ks_loopE_eq N.toNat 0 (List.replicate N.toNat false) s 0 h (by simp)]
  rw [Nat.zero_add]
  rfl

/-- Splitting the pure bit stream: the first m bits then the n bits from
the m-fold clocked state. -/
theorem ks_streamD_add : ∀ m n : Nat, ∀ s : List Bool,
    ks_streamD (m + n) s = ks_streamD m s ++ ks_streamD n (ks_clockD^[m] s) := by
  intro m
  induction m with
  | zero =>
    intro n s
    rw [Nat.zero_add]
    simp [ks_streamD]
  | succ m ih =>
    intro n s
    rw [Nat.succ_add]
    simp only [ks_streamD]
    rw [ih n (ks_clockD s), Function.iterate_succ_apply]
    rfl

/-- The first m bits of a longer pure stream are the m-bit pure stream. -/
theorem ks_streamD_take (m n : Nat) (s : List Bool) :
    (ks_streamD (m + n) s).take m = ks_streamD m s := by
  rw [ks_streamD_add m n s, List.take_append_of_le_length (by rw [ks_streamD_length]),
    List.take_of_length_le (by rw [ks_streamD_length])]

/-- C9: keystream generation on a 288-bit state returns exactly N bits,
collected one per clock in generation order; for N = 0 it returns the empty
sequence, performs zero clocks and leaves the state unchanged. -/
theorem key_stream_generation_c9 (s : List Bool) (N : Int) (h : s.length = 288)
    (hN : 0 ≤ N) :
    ∃ ks, key_stream_generation s N = some ks ∧ (ks.length : Int) = N ∧
      ks = ks_streamD N.toNat s ∧
      key_stream_generation s 0 = some [] ∧
      key_stream_generationE s 0 = some ([], s, 0) := by
  refine ⟨ks_streamD N.toNat s, key_stream_generation_eq s h N, ?_, rfl, rfl, ?_⟩
  · rw [ks_streamD_length]
    omega
  · rw [key_stream_generationE_eq s h 0]
    rfl

/-- Witness for key_stream_generation_c9 at the all-zero state and N = 2. -/
theorem key_stream_generation_c9_witness :
    (List.replicate 288 false : List Bool).length = 288 ∧ (0 : Int) ≤ 2 ∧
      ∃ ks, key_stream_generation (List.replicate 288 false) 2 = some ks ∧
        (ks.length : Int) = 2 ∧
        ks = ks_streamD (2 : Int).toNat (List.replicate 288 false) ∧
        key_stream_generation (List.replicate 288 false) 0 = some [] ∧
        key_stream_generationE (List.replicate 288 false) 0 =
          some ([], List.replicate 288 false, 0) :=
  ⟨by simp, by norm_num,
    key_stream_generation_c9 (List.replicate 288 false) 2 (by simp) (by norm_num)⟩

/-- Counterexample to C5 as stated: key_stream_generation neither receives
an engine nor returns the advanced state, so a second call with the (still
unchanged) state list replays the stream from the start; at the shown state
the replayed bit differs from the last bit of the two-bit stream. -/
theorem key_stream_generation_c5_counterexample :
    key_stream_generation ((List.replicate 288 false).set 65 true) 1 = some [true] ∧
      key_stream_generation ((List.replicate 288 false).set 65 true) 2 =
        some [true, false] ∧
      some [true] ≠ (key_stream_generation ((List.replicate 288 false).set 65 true)
        2).map (List.drop 1) := by
  refine ⟨by decide, by decide, by decide⟩

/-- C5 amended: generating N1 + N2 bits equals generating N1 bits and then
N2 bits from the N1-fold clocked state, but the engine-free code replays
instead of continuing: a second call with the same state list returns the
first N2 bits of the longer stream, not the last N2. -/
theorem key_stream_generation_c5 (s : List Bool) (N1 N2 : Nat) (h : s.length = 288) :
    key_stream_generation s ((N1 : Int) + N2) =
      some (ks_streamD N1 s ++ ks_streamD N2 (ks_clockD^[N1] s)) ∧
      key_stream_generation s (N2 : Int) = some (ks_streamD N2 s) ∧
      ks_streamD N2 s = (ks_streamD (N1 + N2) s).take N2 := by
  refine ⟨?_, ?_, ?_⟩
  · rw [key_stream_generation_eq s h, show ((N1 : Int) + N2).toNat = N1 + N2 by omega,
      ks_streamD_add]
  · rw [key_stream_generation_eq s h, Int.toNat_natCast]
  · rw [show N1 + N2 = N2 + N1 by omega, ks_streamD_take]

/-- Witness for key_stream_generation_c5 at the all-zero state, N1 = 1,
N2 = 1. -/
theorem key_stream_generation_c5_witness :
    (List.replicate 288 false : List Bool).length = 288 ∧
      (key_stream_generation (List.replicate 288 false) ((1 : Int) + 1) =
        some (ks_streamD 1 (List.replicate 288 false) ++
          ks_streamD 1 (ks_clockD^[1] (List.replicate 288 false))) ∧
      key_stream_generation (List.replicate 288 false) (1 : Int) =
        some (ks_streamD 1 (List.replicate 288 false)) ∧
      ks_streamD 1 (List.replicate 288 false) =
        (ks_streamD (1 + 1) (List.replicate 288 false)).take 1) :=
  ⟨by simp, key_stream_generation_c5 (List.replicate 288 false) 1 1 (by simp)⟩

/-- Counterexample to C8 as stated: a negative requested length does not
fail; the call returns the empty keystream. -/
theorem key_stream_generation_c8_counterexample :
    key_stream_generation (List.replicate 288 false) (-1) = some [] := by decide

/-- C8 amended: for a negative requested length the Python buffer [0] * N
and range(N) are both empty, so the call succeeds with the empty keystream,
performs zero clocks and leaves the state unchanged. -/
theorem key_stream_generation_c8 (s : List Bool) (N : Int) (hN : N < 0) :
    key_stream_generation s N = some [] ∧
      key_stream_generationE s N = some ([], s, 0) := by
  have h0 : N.toNat = 0 := by omega
  constructor
  · rw [key_stream_generation, h0]
    rfl
  · rw [key_stream_generationE, h0]
    rfl

/-- Witness for key_stream_generation_c8 at the all-zero state and N = -1. -/
theorem key_stream_generation_c8_witness :
    (-1 : Int) < 0 ∧
      (key_stream_generation (List.replicate 288 false) (-1) = some [] ∧
        key_stream_generationE (List.replicate 288 false) (-1) =
          some ([], List.replicate 288 false, 0)) :=
  ⟨by norm_num, key_stream_generation_c8 (List.replicate 288 false) (-1) (by norm_num)⟩

/-- A key or IV shorter than 80 bits makes the corresponding copying loop
of key_iv_setup read past the end of its source: pre_warm fails. -/
theorem pre_warm_none (key iv : List Bool) (h : key.length < 80 ∨ iv.length < 80) :
    pre_warm key iv = none := by
  rcases Nat.lt_or_ge key.length 80 with hk | hk
  · show (load_bits key 0 0 80 (List.replicate 288 false)) >>= _ = none
    rw [load_bits_none key 0 80 0 _ (by omega) (by omega)]
    rfl
  · have hiv : iv.length < 80 := by omega
    obtain ⟨s1, he1, hl1, _⟩ :=
      load_bits_spec key 0 80 0 (List.replicate 288 false) (by omega) (by simp)
    show (load_bits key 0 0 80 (List.replicate 288 false)) >>= _ = none
    rw [he1, Option.bind_eq_bind', Option.some_bind]
    show (load_bits iv 93 0 80 s1) >>= _ = none
    rw [load_bits_none iv 93 80 0 _ (by omega) (by omega)]
    rfl

/-- key_iv_setup fails exactly like pre_warm on a short key or IV. -/
theorem key_iv_setup_none (key iv : List Bool)
    (h : key.length < 80 ∨ iv.length < 80) : key_iv_setup key iv = none := by
  rw [key_iv_setup, pre_warm_none key iv h]
  rfl

/-- key_iv_setup succeeds whenever both the key and the IV have at least 80
bits. -/
theorem key_iv_setup_some (key iv : List Bool) (hk : 80 ≤ key.length)
    (hiv : 80 ≤ iv.length) : (key_iv_setup key iv).isSome = true := by
  obtain ⟨p, hp, hl, _⟩ := pre_warm_spec key iv hk hiv
  rw [key_iv_setup_eq key iv p hp hl]
  rfl

/-- Bits beyond the first 80 of the key and the IV are never read by
pre_warm. -/
theorem pre_warm_take (key iv : List Bool) (hk : 80 ≤ key.length)
    (hiv : 80 ≤ iv.length) :
    pre_warm key iv = pre_warm (key.take 80) (iv.take 80) := by
  obtain ⟨p, hp, hl, hc⟩ := pre_warm_spec key iv hk hiv
  obtain ⟨q, hq, hql, hqc⟩ := pre_warm_spec (key.take 80) (iv.take 80)
    (by simp [List.length_take]; omega) (by simp [List.length_take]; omega)
  rw [hp, hq]
  congr 1
  apply List.ext_getElem?
  intro j
  rw [hc j, hqc j]
  by_cases h1 : j < 80
  · rw [if_pos h1, if_pos h1, List.getElem?_take_of_lt h1]
  rw [if_neg h1, if_neg h1]
  by_cases h2 : 93 ≤ j ∧ j < 173
  · rw [if_pos h2, if_pos h2, List.getElem?_take_of_lt (by omega)]
  rw [if_neg h2, if_neg h2]

/-- Counterexample to C7 as stated: an 81-bit key is not exactly 80 bits
long, yet construction does not fail at all. -/
theorem key_iv_setup_c7_counterexample :
    (key_iv_setup (List.replicate 81 false) (List.replicate 80 false)).isSome = true :=
  key_iv_setup_some (List.replicate 81 false) (List.replicate 80 false)
    (by simp) (by simp)

/-- C7 amended: key_iv_setup performs no length validation and raises no
InvalidLengthError; it fails (with an out-of-range read) exactly when the
key or the IV is shorter than 80 bits, and ignores any bits beyond the
first 80. -/
theorem key_iv_setup_c7 (key iv : List Bool) :
    ((key_iv_setup key iv).isSome = true ↔ 80 ≤ key.length ∧ 80 ≤ iv.length) ∧
      (80 ≤ key.length → 80 ≤ iv.length →
        key_iv_setup key iv = key_iv_setup (key.take 80) (iv.take 80)) := by
  constructor
  · constructor
    · intro h
      by_contra hcon
      rw [key_iv_setup_none key iv (by omega)] at h
      simp at h
    · intro h
      exact key_iv_setup_some key iv h.1 h.2
  · intro hk hiv
    rw [key_iv_setup, key_iv_setup, pre_warm_take key iv hk hiv]

/-- Witness for key_iv_setup_c7 at an 81-bit key and an 80-bit IV, with the
inner implications discharged. -/
theorem key_iv_setup_c7_witness :
    ((key_iv_setup (List.replicate 81 false) (List.replicate 80 false)).isSome = true ↔
      80 ≤ (List.replicate 81 false : List Bool).length ∧
        80 ≤ (List.replicate 80 false : List Bool).length) ∧
      key_iv_setup (List.replicate 81 false) (List.replicate 80 false) =
        key_iv_setup ((List.replicate 81 false : List Bool).take 80)
          ((List.replicate 80 false : List Bool).take 80) :=
  ⟨(key_iv_setup_c7 (List.replicate 81 false) (List.replicate 80 false)).1,
    (key_iv_setup_c7 (List.replicate 81 false) (List.replicate 80 false)).2
      (by simp) (by simp)⟩

/-- The heap-model generation loop: it allocates only fresh lists, returns
the same keystream as the pure loop on the dereferenced state, and leaves
every pre-existing heap cell untouched. -/
theorem ks_heap_loop_eq : ∀ k i ks heap addr st, heap[addr]? = some st →
    st.length = 288 → ks.length = i + k →
    ∃ heap2, ks_heap_loop k i ks heap addr =
        some (heap2, ks.take i ++ ks_streamD k st) ∧
      ∀ b : Nat, b < heap.length → heap2[b]? = heap[b]? := by
  intro k
  induction k with
  | zero =>
    intro i ks heap addr st _ _ hlen
    refine ⟨heap, ?_, fun b _ => rfl⟩
    simp only [ks_heap_loop, ks_streamD]
    rw [List.take_of_length_le (by omega), List.append_nil]
  | succ k ih =>
    intro i ks heap addr st haddr hst hlen
    obtain ⟨heap2, hrun, hpres⟩ :=
      ih (i + 1) (ks.set i (ks_z st)) (heap ++ [ks_clockD st]) heap.length
        (ks_clockD st) (by rw [List.getElem?_concat_length])
        (ks_clockD_length st hst) (by simp; omega)
    refine ⟨heap2, ?_, ?_⟩
    · simp only [ks_heap_loop]
      rw [haddr, Option.bind_eq_bind', Option.some_bind]
      show (ks_clock st) >>= _ = _
      rw [ks_clock_eq st hst, Option.bind_eq_bind', Option.some_bind]
      show ks_heap_loop k (i + 1) (ks.set i (ks_z st)) (heap ++ [ks_clockD st])
        heap.length = _
      rw [hrun, take_set_succ ks i (ks_z st) (by omega), List.append_assoc]
      rfl
    · intro b hb
      rw [hpres b (by simp; omega), List.getElem?_append_left (by omega)]

/-- C10: key_stream_generation never writes to the caller's list: in the
heap model every pre-call heap cell, the caller's state cell included, is
unchanged after the call, the returned keystream is the pure function of
the pre-call state value, and the advanced cipher state is dropped: the
plain function returns only the first component of its instrumented
companion. -/
theorem key_stream_generation_c10 (heap : List (List Bool)) (addr : Nat)
    (st : List Bool) (N : Int) (haddr : heap[addr]? = some st)
    (hst : st.length = 288) :
    ∃ heap2 ks, key_stream_generation_heap heap addr N = some (heap2, ks) ∧
      (∀ b : Nat, b < heap.length → heap2[b]? = heap[b]?) ∧
      heap2[addr]? = some st ∧
      key_stream_generation st N = some ks ∧
      key_stream_generation st N =
        (key_stream_generationE st N).map (fun r => r.1) := by
  have haddrlt : addr < heap.length := by
    by_contra hc
    rw [List.getElem?_eq_none (by omega)] at haddr
    exact Option.noConfusion haddr
  obtain ⟨heap2, hrun, hpres⟩ :=
    ks_heap_loop_eq N.toNat 0 (List.replicate N.toNat false) heap addr st
      haddr hst (by simp)
  refine ⟨heap2, ks_streamD N.toNat st, ?_, hpres, ?_, key_stream_generation_eq st hst N, ?_⟩
  · rw [key_stream_generation_heap, hrun]
    rfl
  · rw [hpres addr haddrlt, haddr]
  · rw [key_stream_generation_eq st hst N, key_stream_generationE_eq st hst N]
    rfl

/-- Witness for key_stream_generation_c10: a one-cell heap holding the
all-zero state, one requested bit. -/
theorem key_stream_generation_c10_witness :
    ([List.replicate 288 false] : List (List Bool))[0]? =
        some (List.replicate 288 false) ∧
      (List.replicate 288 false : List Bool).length = 288 ∧
      ∃ heap2 ks, key_stream_generation_heap [List.replicate 288 false] 0 1 =
          some (heap2, ks) ∧
        (∀ b : Nat, b < ([List.replicate 288 false] : List (List Bool)).length →
          heap2[b]? = ([List.replicate 288 false] : List (List Bool))[b]?) ∧
        heap2[0]? = some (List.replicate 288 false) ∧
        key_stream_generation (List.replicate 288 false) 1 = some ks ∧
        key_stream_generation (List.replicate 288 false) 1 =
          (key_stream_generationE (List.replicate 288 false) 1).map (fun r => r.1) :=
  ⟨rfl, by simp,
    key_stream_generation_c10 [List.replicate 288 false] 0 (List.replicate 288 false)
      1 rfl (by simp)⟩

end ClTrivium

namespace GroverTrivium

/-- Computational-basis state of the circuit of grover_trivium_attack.py:
the 288-qubit cipher register s, the 3-qubit temporary register t and the
keystream register z.  Every gate the script applies (x, cx, ccx, swap) is
classical, so the circuit acts on basis states by these functions. -/
@[ext]
structure QState where
  s : Nat → Bool
  t : Nat → Bool
  z : Nat → Bool

/-- qc.cx(s[a], s[d]): controlled-not inside the s register. -/
def s_cx (st : QState) (a d : Nat) : QState :=
  { st with s := fun j => if j = d then Bool.xor (st.s d) (st.s a) else st.s j }

/-- qc.ccx(s[a], s[b], s[d]): Toffoli inside the s register. -/
def s_ccx (st : QState) (a b d : Nat) : QState :=
  { st with s := fun j => if j = d then Bool.xor (st.s d) (st.s a && st.s b) else st.s j }

/-- qc.swap(s[i], s[j]) inside the s register. -/
def s_swap (st : QState) (i j : Nat) : QState :=
  { st with s := fun k => if k = i then st.s j else if k = j then st.s i else st.s k }

/-- qc.swap(s[d], t[ti]) across the s and t registers. -/
def st_swap (st : QState) (d ti : Nat) : QState :=
  { st with
    s := fun k => if k = d then st.t ti else st.s k
    t := fun k => if k = ti then st.s d else st.t k }

/-- qc.cx(s[a], t[ti]): control in s, target in t. -/
def t_cx (st : QState) (a ti : Nat) : QState :=
  { st with t := fun k => if k = ti then Bool.xor (st.t ti) (st.s a) else st.t k }

/-- qc.ccx(s[a], s[b], t[ti]): controls in s, target in t. -/
def t_ccx (st : QState) (a b ti : Nat) : QState :=
  { st with t := fun k => if k = ti then Bool.xor (st.t ti) (st.s a && st.s b) else st.t k }

/-- qc.cx(t[ti], z[i]): control in t, target in z. -/
def z_cx (st : QState) (ti i : Nat) : QState :=
  { st with z := fun k => if k = i then Bool.xor (st.z i) (st.t ti) else st.z k }

/-- state_update of grover_trivium_attack.py (lines 22-36). -/
def state_update (st : QState) (a b c d e ti : Nat) : QState :=
  let st := s_cx st a d
  let st := s_ccx st b c d
  let st := s_cx st e d
  st_swap st d ti

/-- Inner loop of state_shifting, j running from b + n down to b: adjacent
swaps, then the final swap with t[ti] at j = b. -/
def shift_go (st : QState) (b ti : Nat) : Nat → QState
  | 0 => st_swap st b ti
  | n + 1 => shift_go (s_swap st (b + n + 1) (b + n)) b ti n

/-- state_shifting of grover_trivium_attack.py (lines 38-56); the while
loop starts at j = a and runs nothing when a < b. -/
def state_shifting (st : QState) (a b ti : Nat) : QState :=
  if a < b then st else shift_go st b ti (a - b)

/-- update_t of grover_trivium_attack.py (lines 58-71). -/
def update_t (st : QState) (a b ti : Nat) : QState :=
  let st := s_cx st a b
  st_swap st b ti

/-- One iteration of the initialisation loop of trivium
(grover_trivium_attack.py lines 85-92). -/
def init_round (st : QState) : QState :=
  let st := state_update st 65 90 91 92 170 0
  let st := state_update st 161 174 175 176 263 1
  let st := state_update st 242 285 286 287 68 2
  let st := state_shifting st 287 177 1
  let st := state_shifting st 176 93 0
  state_shifting st 92 0 2

/-- The initialisation loop of trivium: rounds iterations. -/
def init_loop : Nat → QState → QState
  | 0, st => st
  | k + 1, st => init_loop k (init_round st)

/-- One iteration of the keystream loop of trivium
(grover_trivium_attack.py lines 95-113), writing z[i]. -/
def gen_round (st : QState) (i : Nat) : QState :=
  let st := update_t st 65 92 0
  let st := update_t st 161 176 1
  let st := update_t st 242 287 2
  let st := z_cx st 0 i
  let st := z_cx st 1 i
  let st := z_cx st 2 i
  let st := t_ccx st 90 91 0
  let st := t_cx st 170 0
  let st := t_ccx st 174 175 1
  let st := t_cx st 263 1
  let st := t_ccx st 285 286 2
  let st := t_cx st 68 2
  let st := state_shifting st 287 177 1
  let st := state_shifting st 176 93 0
  state_shifting st 92 0 2

/-- The keystream loop of trivium, i ascending, k iterations remaining. -/
def gen_loop : Nat → Nat → QState → QState
  | _, 0, st => st
  | i, k + 1, st => gen_loop (i + 1) k (gen_round st i)

/-- trivium of grover_trivium_attack.py (lines 73-113): rounds
initialisation iterations, then n keystream iterations. -/
def trivium (rounds n : Nat) (st : QState) : QState :=
  gen_loop 0 n (init_loop rounds st)

/-- inv_state_update of grover_trivium_attack.py (lines 115-122). -/
def inv_state_update (st : QState) (a b c d e ti : Nat) : QState :=
  let st := st_swap st d ti
  let st := s_cx st e d
  let st := s_ccx st b c d
  s_cx st a d

/-- Inner loop of state_shifting_left, j running from b up to b + n. -/
def shift_left_go (st : QState) (b ti : Nat) : Nat → QState
  | 0 => st_swap st b ti
  | n + 1 =>
    let st := shift_left_go st b ti n
    s_swap st (b + n + 1) (b + n)

/-- state_shifting_left of grover_trivium_attack.py (lines 124-132); the
range(b, a + 1) loop runs nothing when a < b. -/
def state_shifting_left (st : QState) (a b ti : Nat) : QState :=
  if a < b then st else shift_left_go st b ti (a - b)

/-- inv_update_t of grover_trivium_attack.py (lines 134-139). -/
def inv_update_t (st : QState) (a b ti : Nat) : QState :=
  let st := st_swap st b ti
  s_cx st a b

/-- One iteration of the keystream part of inv_trivium
(grover_trivium_attack.py lines 146-165), writing z[n - 1 - i]. -/
def inv_gen_round (st : QState) (n i : Nat) : QState :=
  let st := state_shifting_left st 92 0 2
  let st := state_shifting_left st 176 93 0
  let st := state_shifting_left st 287 177 1
  let st := t_cx st 68 2
  let st := t_ccx st 285 286 2
  let st := t_cx st 263 1
  let st := t_ccx st 174 175 1
  let st := t_cx st 170 0
  let st := t_ccx st 90 91 0
  let st := z_cx st 2 (n - 1 - i)
  let st := z_cx st 1 (n - 1 - i)
  let st := z_cx st 0 (n - 1 - i)
  let st := inv_update_t st 242 287 2
  let st := inv_update_t st 161 176 1
  inv_update_t st 65 92 0

/-- The keystream part of inv_trivium: i ascending, k iterations left. -/
def inv_gen_loop (n : Nat) : Nat → Nat → QState → QState
  | _, 0, st => st
  | i, k + 1, st => inv_gen_loop n (i + 1) k (inv_gen_round st n i)

/-- One iteration of the initialisation part of inv_trivium
(grover_trivium_attack.py lines 168-175). -/
def inv_init_round (st : QState) : QState :=
  let st := state_shifting_left st 92 0 2
  let st := state_shifting_left st 176 93 0
  let st := state_shifting_left st 287 177 1
  let st := inv_state_update st 242 285 286 287 68 2
  let st := inv_state_update st 161 174 175 176 263 1
  inv_state_update st 65 90 91 92 170 0

/-- The initialisation part of inv_trivium: rounds iterations. -/
def inv_init_loop : Nat → QState → QState
  | 0, st => st
  | k + 1, st => inv_init_loop k (inv_init_round st)

/-- inv_trivium of grover_trivium_attack.py (lines 141-175): undo the
keystream loop, then undo the initialisation loop. -/
def inv_trivium (rounds n : Nat) (st : QState) : QState :=
  inv_init_loop rounds (inv_gen_loop n 0 n st)

/-- Xoring the same value twice is the identity. -/
theorem bxor_cancel (x y : Bool) : Bool.xor (Bool.xor x y) y = x := by
  cases x <;> cases y <;> rfl

/-- A controlled-not inside s is its own inverse when control and target
differ. -/
theorem s_cx_s_cx (st : QState) (a d : Nat) (h : a ≠ d) :
    s_cx (s_cx st a d) a d = st := by
  cases st
  simp only [s_cx]
  congr 1
  funext j
  split_ifs <;> simp_all [bxor_cancel]

/-- A Toffoli inside s is its own inverse when both controls differ from
the target. -/
theorem s_ccx_s_ccx (st : QState) (a b d : Nat) (ha : a ≠ d) (hb : b ≠ d) :
    s_ccx (s_ccx st a b d) a b d = st := by
  cases st
  simp only [s_ccx]
  congr 1
  funext j
  split_ifs <;> simp_all [bxor_cancel]

/-- A swap inside s is its own inverse. -/
theorem s_swap_s_swap (st : QState) (i j : Nat) :
    s_swap (s_swap st i j) i j = st := by
  cases st
  simp only [s_swap]
  congr 1
  funext k
  split_ifs <;> simp_all

/-- The swap between s[d] and t[ti] is its own inverse. -/
theorem st_swap_st_swap (st : QState) (d ti : Nat) :
    st_swap (st_swap st d ti) d ti = st := by
  cases st
  simp only [st_swap]
  congr 1
  · funext k
    split_ifs <;> simp_all
  · funext k
    split_ifs <;> simp_all

/-- A controlled-not from s into t is its own inverse. -/
theorem t_cx_t_cx (st : QState) (a ti : Nat) :
    t_cx (t_cx st a ti) a ti = st := by
  cases st
  simp only [t_cx]
  congr 1
  funext k
  split_ifs <;> simp_all [bxor_cancel]

/-- A Toffoli from s into t is its own inverse. -/
theorem t_ccx_t_ccx (st : QState) (a b ti : Nat) :
    t_ccx (t_ccx st a b ti) a b ti = st := by
  cases st
  simp only [t_ccx]
  congr 1
  funext k
  split_ifs <;> simp_all [bxor_cancel]

/-- A controlled-not from t into z is its own inverse. -/
theorem z_cx_z_cx (st : QState) (ti i : Nat) :
    z_cx (z_cx st ti i) ti i = st := by
  cases st
  simp only [z_cx]
  congr 1
  funext k
  split_ifs <;> simp_all [bxor_cancel]

/-- inv_state_update undoes state_update when no tap index equals the
target index. -/
theorem inv_state_update_state_update (st : QState) (a b c d e ti : Nat)
    (ha : a ≠ d) (hb : b ≠ d) (hc : c ≠ d) (he : e ≠ d) :
    inv_state_update (state_update st a b c d e ti) a b c d e ti = st := by
  simp only [state_update, inv_state_update]
  rw [st_swap_st_swap, s_cx_s_cx _ e d he, s_ccx_s_ccx _ b c d hb hc,
    s_cx_s_cx _ a d ha]

/-- The left shift undoes the right shift segment by segment. -/
theorem shift_left_go_shift_go (b ti : Nat) :
    ∀ n : Nat, ∀ st : QState,
      shift_left_go (shift_go st b ti n) b ti n = st := by
  intro n
  induction n with
  | zero => intro st; exact st_swap_st_swap st b ti
  | succ n ih =>
    intro st
    simp only [shift_go, shift_left_go]
    rw [ih (s_swap st (b + n + 1) (b + n)), s_swap_s_swap]

/-- state_shifting_left undoes state_shifting. -/
theorem state_shifting_left_state_shifting (st : QState) (a b ti : Nat) :
    state_shifting_left (state_shifting st a b ti) a b ti = st := by
  by_cases h : a < b
  · rw [state_shifting, state_shifting_left, if_pos h, if_pos h]
  · rw [state_shifting, state_shifting_left, if_neg h, if_neg h]
    exact shift_left_go_shift_go b ti (a - b) st

/-- inv_update_t undoes update_t when the two indices differ. -/
theorem inv_update_t_update_t (st : QState) (a b ti : Nat) (h : a ≠ b) :
    inv_update_t (update_t st a b ti) a b ti = st := by
  simp only [update_t, inv_update_t]
  rw [st_swap_st_swap, s_cx_s_cx _ a b h]

/-- One inverse initialisation round undoes one forward initialisation
round. -/
theorem inv_init_round_init_round (st : QState) :
    inv_init_round (init_round st) = st := by
  simp only [init_round, inv_init_round]
  rw [state_shifting_left_state_shifting, state_shifting_left_state_shifting,
    state_shifting_left_state_shifting,
    inv_state_update_state_update _ 242 285 286 287 68 2
      (by decide) (by decide) (by decide) (by decide),
    inv_state_update_state_update _ 161 174 175 176 263 1
      (by decide) (by decide) (by decide) (by decide),
    inv_state_update_state_update _ 65 90 91 92 170 0
      (by decide) (by decide) (by decide) (by decide)]

/-- One inverse keystream round at inverse loop index i undoes the forward
keystream round that wrote z[n - 1 - i]. -/
theorem inv_gen_round_gen_round (st : QState) (n i m : Nat)
    (hm : n - 1 - i = m) :
    inv_gen_round (gen_round st m) n i = st := by
  subst hm
  simp only [gen_round, inv_gen_round]
  rw [state_shifting_left_state_shifting, state_shifting_left_state_shifting,
    state_shifting_left_state_shifting,
    t_cx_t_cx, t_ccx_t_ccx, t_cx_t_cx, t_ccx_t_ccx, t_cx_t_cx, t_ccx_t_ccx,
    z_cx_z_cx, z_cx_z_cx, z_cx_z_cx,
    inv_update_t_update_t _ 242 287 2 (by decide),
    inv_update_t_update_t _ 161 176 1 (by decide),
    inv_update_t_update_t _ 65 92 0 (by decide)]

/-- Unrolling the keystream loop from its last iteration. -/
theorem gen_loop_snoc : ∀ k i : Nat, ∀ st : QState,
    gen_loop i (k + 1) st = gen_round (gen_loop i k st) (i + k) := by
  intro k
  induction k with
  | zero => intro i st; rfl
  | succ k ih =>
    intro i st
    show gen_loop (i + 1) (k + 1) (gen_round st i) = _
    rw [ih (i + 1) (gen_round st i), show i + 1 + k = i + (k + 1) from by omega]
    rfl

/-- The inverse keystream loop undoes the forward keystream loop: the
inverse iteration at index j rewrites z[n - 1 - j] and so cancels the
forward iteration that wrote it, last first. -/
theorem inv_gen_loop_gen_loop (n : Nat) : ∀ k i : Nat, ∀ st : QState,
    i + k ≤ n → inv_gen_loop n (n - i - k) k (gen_loop i k st) = st := by
  intro k
  induction k with
  | zero => intro i st _; rfl
  | succ k ih =>
    intro i st h
    rw [gen_loop_snoc k i st]
    simp only [inv_gen_loop]
    rw [inv_gen_round_gen_round (gen_loop i k st) n (n - i - (k + 1)) (i + k)
        (by omega),
      show n - i - (k + 1) + 1 = n - i - k from by omega]
    exact ih i st (by omega)

/-- Unrolling the initialisation loop from its last iteration. -/
theorem init_loop_snoc : ∀ k : Nat, ∀ st : QState,
    init_loop (k + 1) st = init_round (init_loop k st) := by
  intro k
  induction k with
  | zero => intro st; rfl
  | succ k ih =>
    intro st
    show init_loop (k + 1) (init_round st) = _
    rw [ih (init_round st)]
    rfl

/-- The inverse initialisation loop undoes the forward initialisation
loop. -/
theorem inv_init_loop_init_loop : ∀ k : Nat, ∀ st : QState,
    inv_init_loop k (init_loop k st) = st := by
  intro k
  induction k with
  | zero => intro st; rfl
  | succ k ih =>
    intro st
    rw [init_loop_snoc k st]
    simp only [inv_init_loop]
    rw [inv_init_round_init_round, ih st]

/-- C4: inv_trivium is the exact inverse of trivium on every
computational-basis state: one inverse initialisation round recovers the
state before one forward round bit for bit, and N forward rounds plus n
keystream steps followed by the inverse circuit return the original state
unchanged. -/
theorem inv_trivium_c4 (st : QState) (N n : Nat) :
    inv_init_round (init_round st) = st ∧
      inv_trivium N n (trivium N n st) = st := by
  refine ⟨inv_init_round_init_round st, ?_⟩
  have h := inv_gen_loop_gen_loop n n 0 (init_loop N st) (by omega)
  rw [show n - 0 - n = 0 from by omega] at h
  rw [trivium, inv_trivium, h, inv_init_loop_init_loop N st]

example :
    (init_round { s := fun j => j == 65, t := fun _ => false, z := fun _ => false }).s 66 =
      true := by decide
example :
    (init_round { s := fun j => j == 65, t := fun _ => false, z := fun _ => false }).s 93 =
      true := by decide
example :
    (init_round { s := fun j => j == 65, t := fun _ => false, z := fun _ => false }).s 0 =
      false := by decide
example :
    (init_round { s := fun j => j == 65, t := fun _ => false, z := fun _ => false }).t 0 =
      false := by decide
example :
    (gen_round { s := fun j => j == 65, t := fun _ => false, z := fun _ => false } 0).z 0 =
      true := by decide
example :
    (gen_round { s := fun j => j == 65, t := fun _ => false, z := fun _ => false } 0).t 2 =
      false := by decide

end GroverTrivium
